import Mathlib

/-!
Verification of the core logic of a curses-based Game of Life program
(`gol.py`): grid representation, toroidal neighbour counting, generation
advance, alive-counter bookkeeping, cursor motion (including the
count-prefixed motion grammar of `move_multiple`), the manual-edit loop
(`map_drawer_loop`) and the input dispatcher (`fetch_input`).

Modelling conventions:
* Python `List[List[int]]` grids become `List (List Int)`; Python integers
  become `Int` (arbitrary precision, as in Python).
* Python `%` on integers with a positive modulus agrees with `Int.emod`
  (Lean's `%` on `Int`), both returning the representative in `[0, m)`.
* The curses input stream (`getch`) is modelled as a `List Nat` of key
  codes consumed from the front; `random.randint` results are passed in as
  explicit parameters (the target count) and streams of picks.
* Screen drawing, colors and `time.sleep` are I/O with no effect on the
  core state and are not modelled.
-/

namespace GoL

abbrev Grid := List (List Int)

/-- Read `gol_map[y][x]`.  At every use site in the program the indices are
in range, so the `0` / `[]` defaults are never hit on well-formed states. -/
def cellAt (m : Grid) (y x : Nat) : Int := (m.getD y []).getD x 0

/-- Write `gol_map[y][x] = v` (a no-op out of range, which never happens in
the program). -/
def setCell (m : Grid) (y x : Nat) (v : Int) : Grid :=
  m.set y ((m.getD y []).set x v)

/-- `[[0 for x in range(self.max_x)] for y in range(self.max_y)]` — the
all-dead grid built by `__init__` and `clear_map`.  A nonpositive extent
gives an empty `range`, hence no rows / no columns. -/
def mkGolMap (my mx : Int) : Grid :=
  List.replicate my.toNat (List.replicate mx.toNat 0)

/-- Full-scan count of live cells (the reference value the incrementally
maintained `self.alive` counter is checked against). -/
def countAlive (m : Grid) : Nat :=
  (m.map (fun r => r.countP (fun c => c == 1))).sum

/-- The grid is a dense `rows × cols` buffer. -/
def Shaped (m : Grid) (rows cols : Nat) : Prop :=
  m.length = rows ∧ ∀ r ∈ m, r.length = cols

/-- Every stored cell value is `0` or `1`. -/
def cells01 (m : Grid) : Prop := ∀ r ∈ m, ∀ c ∈ r, c = 0 ∨ c = 1

/-- The mutable state of the `GameOfLife` object: the cell buffer, the two
counters, the cursor and the field extents fixed at startup. -/
structure GolState where
  gol_map : Grid
  alive : Int
  generation : Int
  cur_y : Int
  cur_x : Int
  max_y : Int
  max_x : Int
deriving Repr, DecidableEq

/-- `__init__`: counters zeroed, cursor at the grid centre
(`math.floor(max/2)`), all-dead map.  The curses screen-size arithmetic
that produces `max_y`/`max_x` is display I/O; the extents are parameters. -/
def initState (my mx : Int) : GolState :=
  { gol_map := mkGolMap my mx, alive := 0, generation := 0,
    cur_y := my / 2, cur_x := mx / 2, max_y := my, max_x := mx }

/-- `move_cursor_by`: add the delta and wrap both axes modulo the extents. -/
def move_cursor_by (st : GolState) (y x : Int) : GolState :=
  { st with cur_y := (st.cur_y + y) % st.max_y,
            cur_x := (st.cur_x + x) % st.max_x }

/-- `clear_map`: reset both counters and replace the map by an all-dead one. -/
def clear_map (st : GolState) : GolState :=
  { st with generation := 0, alive := 0,
            gol_map := mkGolMap st.max_y st.max_x }

/-- `toggle_cell_at_cursor`: flip the cell under the cursor
(`res = 1 - gol_map[cur_y][cur_x]`) and adjust `alive` by `±1`. -/
def toggle_cell_at_cursor (st : GolState) : GolState :=
  let res := 1 - cellAt st.gol_map st.cur_y.toNat st.cur_x.toNat
  let m := setCell st.gol_map st.cur_y.toNat st.cur_x.toNat res
  if res > 0 then { st with gol_map := m, alive := st.alive + 1 }
  else { st with gol_map := m, alive := st.alive - 1 }

/-- One toroidally wrapped read `gol_map[(yy) % max_y][(xx) % max_x]`. -/
def wrapAt (m : Grid) (my mx : Int) (yy xx : Int) : Int :=
  cellAt m (yy % my).toNat (xx % mx).toNat

/-- The neighbour sum of `check_cell`: the 3×3 block around `(y, x)` with
toroidal wrap, minus the centre cell (`sum_neighbours -= gol_map[y][x]`). -/
def sumNeighbours (m : Grid) (my mx : Int) (x y : Nat) : Int :=
  (([-1, 0, 1] : List Int).map (fun i =>
    (([-1, 0, 1] : List Int).map (fun j =>
      wrapAt m my mx ((y : Int) + i) ((x : Int) + j))).sum)).sum
  - cellAt m y x

/-- `check_cell`: decide the fate of cell `(x, y)` from the pre-advance
grid `st.gol_map`, writing the result into the fresh buffer and adjusting
the `alive` counter carried in `acc`. -/
def check_cell (st : GolState) (x y : Nat) (acc : Grid × Int) : Grid × Int :=
  let s := sumNeighbours st.gol_map st.max_y st.max_x x y
  if cellAt st.gol_map y x = 1 then
    if s < 2 ∨ s > 3 then (setCell acc.1 y x 0, acc.2 - 1)
    else if 2 ≤ s ∧ s ≤ 3 then (setCell acc.1 y x 1, acc.2)
    else acc
  else
    if s = 3 then (setCell acc.1 y x 1, acc.2 + 1)
    else acc

/-- `calculate_new_map`: start from a fresh all-dead buffer and run
`check_cell` over every `(x, y)`; also returns the updated `alive` counter
(which the Python code mutates in place on `self`). -/
def calculate_new_map (st : GolState) : Grid × Int :=
  (List.range st.max_x.toNat).foldl
    (fun acc x => (List.range st.max_y.toNat).foldl
      (fun acc2 y => check_cell st x y acc2) acc)
    (mkGolMap st.max_y st.max_x, st.alive)

/-- `game_step`: install the freshly computed map and increment the
generation counter. -/
def game_step (st : GolState) : GolState :=
  let r := calculate_new_map st
  { st with gol_map := r.1, alive := r.2, generation := st.generation + 1 }

/-- The inner `while not cell_set and fail_count < max_x * max_y` loop of
`generate_random_map`: try to turn `(x, y)` alive; on an already-alive cell
redraw coordinates from the pick stream and count the failure.  Returns the
updated state, failure counter and pick-stream index. -/
def try_set_cell (picks : Nat → Nat × Nat) (bound : Nat) (st : GolState)
    (x y fail idx : Nat) : GolState × Nat × Nat :=
  if h : fail < bound then
    if cellAt st.gol_map y x < 1 then
      ({ st with alive := st.alive + 1, gol_map := setCell st.gol_map y x 1 },
       fail, idx)
    else
      try_set_cell picks bound st (picks idx).1 (picks idx).2 (fail + 1) (idx + 1)
  else (st, fail, idx)
termination_by bound - fail
decreasing_by
  simp_wf
  omega

/-- `generate_random_map`: clear the map, then `rand` times pick random
coordinates and set a not-yet-alive cell, with the saturation bound
`fail_count < max_x * max_y` carried across iterations.  `rand` (the
`randint(MIN_RAND_CELLS, MAX_RAND_CELLS)` result) and the coordinate pick
stream are parameters standing for the `random` module. -/
def generate_random_map (st : GolState) (rand : Nat)
    (picks : Nat → Nat × Nat) : GolState :=
  let st0 := clear_map st
  let bound := (st0.max_x * st0.max_y).toNat
  ((List.range rand).foldl
    (fun acc _ =>
      let p := picks acc.2.2
      let r := try_set_cell picks bound acc.1 p.1 p.2 acc.2.1 (acc.2.2 + 1)
      (r.1, r.2.1, r.2.2))
    (st0, 0, 0)).1

/-! ### Interactive input: count-prefixed motion, edit loop, dispatcher -/

/-- The ASCII-digit restriction of `chr(ch).isnumeric()` (codes 48–57).
This is exact on input streams free of the six Latin-1 numeric non-digit
codes 178/179/185/188/189/190 (`²` `³` `¹` `¼` `½` `¾`); `isNumericCode`
below is the full test, and `move_multiple_exc` the variant of
`move_multiple` built on it, with the `int(num)` failure made explicit. -/
def isDigitCode (c : Nat) : Bool := 48 ≤ c && c ≤ 57

/-- The digit-collecting loop of `move_multiple`: `num = chr(ch)` followed
by `while chr(ch).isnumeric(): ch = getch(); num += chr(ch)`.  Returns the
full echoed string (digits plus the terminating key), the terminating key,
and the unconsumed rest of the input stream. -/
def golReadNum : Nat → List Nat → List Nat × Nat × List Nat
  | ch, inp =>
    if isDigitCode ch then
      match inp with
      | [] => ([ch], ch, [])
      | c :: rest =>
        let r := golReadNum c rest
        (ch :: r.1, r.2.1, r.2.2)
    else ([ch], ch, inp)

/-- `int(num)` on a string of ASCII digit codes. -/
def decimalVal (ds : List Nat) : Int :=
  ds.foldl (fun a c => a * 10 + ((c : Int) - 48)) 0

/-- `move_multiple`: read digits starting from `ch`, strip the terminating
key (`num = num[:len(num) - 1]`), and move the cursor by `int(num)` if the
terminator is one of `h`/`j`/`k`/`l` (codes 104/106/107/108); any other
terminator discards the digits.  Also returns the unconsumed input. -/
def move_multiple (st : GolState) (ch : Nat) (inp : List Nat) :
    GolState × List Nat :=
  let r := golReadNum ch inp
  let num := decimalVal r.1.dropLast
  let t := r.2.1
  let st1 :=
    if t = 104 then move_cursor_by st 0 (-num)
    else if t = 106 then move_cursor_by st num 0
    else if t = 107 then move_cursor_by st (-num) 0
    else if t = 108 then move_cursor_by st 0 num
    else st
  (st1, r.2.2)

/-- The remaining-input component of `golReadNum` is a suffix of the
stream, so the edit loop below consumes at least the command key. -/
theorem golReadNum_rem_le :
    ∀ (ch : Nat) (inp : List Nat), (golReadNum ch inp).2.2.length ≤ inp.length := by
  intro ch inp
  induction inp generalizing ch with
  | nil => rw [golReadNum]; split <;> simp
  | cons c rest ih =>
    rw [golReadNum]
    split
    · exact Nat.le_trans (ih c) (Nat.le_succ _)
    · simp

/-- The `while True` body of `map_drawer_loop` (curses key constants:
`KEY_UP = 259`, `KEY_DOWN = 258`, `KEY_LEFT = 260`, `KEY_RIGHT = 261`):
single-cell cursor motion, toggle on space, exit on `q`/newline,
count-prefixed motion on a digit, everything else ignored.  The input
stream is consumed from the front; an exhausted stream stands for a
`getch` that never returns. -/
def mdl_go : GolState → List Nat → GolState
  | st, [] => st
  | st, com :: rest =>
    if com = 259 ∨ com = 107 then
      mdl_go { st with cur_y := (st.cur_y - 1) % st.max_y } rest
    else if com = 258 ∨ com = 106 then
      mdl_go { st with cur_y := (st.cur_y + 1) % st.max_y } rest
    else if com = 260 ∨ com = 104 then
      mdl_go { st with cur_x := (st.cur_x - 1) % st.max_x } rest
    else if com = 261 ∨ com = 108 then
      mdl_go { st with cur_x := (st.cur_x + 1) % st.max_x } rest
    else if com = 32 then mdl_go (toggle_cell_at_cursor st) rest
    else if com = 113 ∨ com = 10 then st
    else if 0 < com ∧ isDigitCode com then
      let r := move_multiple st com rest
      mdl_go r.1 r.2
    else mdl_go st rest
termination_by _ inp => inp.length
decreasing_by
  all_goals simp_wf
  exact Nat.lt_succ_of_le (golReadNum_rem_le com rest)

/-- `map_drawer_loop`: the blocking manual-edit session (drawing calls are
display I/O and drop out of the model). -/
def map_drawer_loop (st : GolState) (inp : List Nat) : GolState :=
  mdl_go st inp

/-- `fetch_input`: one dispatch step of the main loop.  `ch` is the
`getch` result (`-1` when a non-blocking poll found nothing); `inp` feeds
`map_drawer_loop` / `move_multiple`; `rand`/`picks` stand for the `random`
module used by the `r` branch.  Returns the new state and the updated
`(running, is_paused)` flags. -/
def fetch_input (st : GolState) (running is_paused : Bool) (ch : Int)
    (inp : List Nat) (rand : Nat) (picks : Nat → Nat × Nat) :
    GolState × Bool × Bool :=
  if ch > -1 then
    if ch = 114 then (generate_random_map st rand picks, running, false)
    else if ch = 101 then (map_drawer_loop st inp, running, false)
    else if ch = 99 then (clear_map st, running, true)
    else if ch = 104 then (move_cursor_by st 0 (-1), running, is_paused)
    else if ch = 106 then (move_cursor_by st 1 0, running, is_paused)
    else if ch = 107 then (move_cursor_by st (-1) 0, running, is_paused)
    else if ch = 108 then (move_cursor_by st 0 1, running, is_paused)
    else if ch = 113 then (st, false, is_paused)
    else if isDigitCode ch.toNat then
      ((move_multiple st ch.toNat inp).1, running, is_paused)
    else if ch = 112 ∨ ch = 10 then (st, running, !is_paused)
    else if ch = 32 then (toggle_cell_at_cursor st, running, is_paused)
    else (st, running, is_paused)
  else (st, running, is_paused)

/-! ### Basic list and grid lemmas -/

theorem getD_set_ne {α : Type} (l : List α) (i j : Nat) (a d : α) (h : i ≠ j) :
    (l.set i a).getD j d = l.getD j d := by
  by_cases hj : j < l.length
  · have hj2 : j < (l.set i a).length := by simpa [List.length_set] using hj
    rw [List.getD_eq_getElem _ _ hj2, List.getD_eq_getElem _ _ hj]
    exact List.getElem_set_ne h hj2
  · have hj3 : l.length ≤ j := Nat.le_of_not_lt hj
    rw [List.getD_eq_default _ _ (by simpa [List.length_set] using hj3),
        List.getD_eq_default _ _ hj3]

theorem getD_set_self {α : Type} (l : List α) (i : Nat) (a d : α)
    (h : i < l.length) : (l.set i a).getD i d = a := by
  have h2 : i < (l.set i a).length := by simpa [List.length_set] using h
  rw [List.getD_eq_getElem _ _ h2]
  exact List.getElem_set_self h2

theorem cellAt_setCell_ne (m : Grid) (y x y2 x2 : Nat) (v : Int)
    (h : ¬(y2 = y ∧ x2 = x)) :
    cellAt (setCell m y x v) y2 x2 = cellAt m y2 x2 := by
  unfold cellAt setCell
  by_cases hy : y2 = y
  · subst hy
    have hx : x2 ≠ x := fun hx2 => h ⟨rfl, hx2⟩
    by_cases hlen : y2 < m.length
    · rw [getD_set_self m y2 _ [] hlen]
      exact getD_set_ne _ x x2 v 0 hx.symm
    · rw [List.set_eq_of_length_le (Nat.le_of_not_lt hlen)]
  · rw [getD_set_ne m y y2 _ [] (fun hh => hy hh.symm)]

theorem cellAt_setCell_self (m : Grid) (y x : Nat) (v : Int)
    (hy : y < m.length) (hx : x < (m.getD y []).length) :
    cellAt (setCell m y x v) y x = v := by
  unfold cellAt setCell
  rw [getD_set_self m y _ [] hy, getD_set_self _ x v 0 hx]

theorem shaped_setCell {m : Grid} {rows cols : Nat} (h : Shaped m rows cols)
    (y x : Nat) (v : Int) : Shaped (setCell m y x v) rows cols := by
  obtain ⟨hl, hrows⟩ := h
  by_cases hy : y < m.length
  · refine ⟨by simp [setCell, List.length_set, hl], ?_⟩
    intro row hrow
    rcases List.mem_or_eq_of_mem_set hrow with h1 | h1
    · exact hrows row h1
    · subst h1
      rw [List.length_set]
      refine hrows _ ?_
      rw [List.getD_eq_getElem _ _ hy]
      exact List.getElem_mem hy
  · unfold setCell
    rw [List.set_eq_of_length_le (Nat.le_of_not_lt hy)]
    exact ⟨hl, hrows⟩

theorem getD_replicate {α : Type} (n i : Nat) (a d : α) :
    (List.replicate n a).getD i d = if i < n then a else d := by
  by_cases h : i < n
  · have hl : i < (List.replicate n a).length := by simpa using h
    rw [if_pos h, List.getD_eq_getElem _ _ hl]
    exact List.getElem_replicate _ _
  · rw [if_neg h, List.getD_eq_default _ _ (by simpa using Nat.le_of_not_lt h)]

theorem cellAt_mkGolMap (my mx : Int) (y x : Nat) :
    cellAt (mkGolMap my mx) y x = 0 := by
  unfold cellAt mkGolMap
  rw [getD_replicate]
  by_cases hy : y < my.toNat
  · rw [if_pos hy, getD_replicate]
    split <;> rfl
  · rw [if_neg hy]
    exact List.getD_nil

theorem shaped_mkGolMap (my mx : Int) :
    Shaped (mkGolMap my mx) my.toNat mx.toNat := by
  refine ⟨by simp [mkGolMap], ?_⟩
  intro r hr
  rw [List.eq_of_mem_replicate hr]
  simp

theorem cells01_mkGolMap (my mx : Int) : cells01 (mkGolMap my mx) := by
  intro r hr c hc
  rw [List.eq_of_mem_replicate hr] at hc
  exact Or.inl (List.eq_of_mem_replicate hc)

theorem countAlive_mkGolMap (my mx : Int) : countAlive (mkGolMap my mx) = 0 := by
  unfold countAlive mkGolMap
  have h1 : List.countP (fun c => c == (1 : Int)) (List.replicate mx.toNat 0) = 0 := by
    rw [List.countP_eq_zero]
    intro a ha
    rw [List.eq_of_mem_replicate ha]
    simp
  simp [List.map_replicate, h1, List.sum_replicate]

theorem cellAt01 {m : Grid} (h : cells01 m) (y x : Nat) :
    cellAt m y x = 0 ∨ cellAt m y x = 1 := by
  unfold cellAt
  by_cases hy : y < m.length
  · have hrow : m.getD y [] ∈ m := by
      rw [List.getD_eq_getElem _ _ hy]; exact List.getElem_mem hy
    by_cases hx : x < (m.getD y []).length
    · have hc : (m.getD y []).getD x 0 ∈ m.getD y [] := by
        rw [List.getD_eq_getElem _ _ hx]; exact List.getElem_mem hx
      exact h _ hrow _ hc
    · rw [List.getD_eq_default _ _ (Nat.le_of_not_lt hx)]
      exact Or.inl rfl
  · rw [List.getD_eq_default _ _ (Nat.le_of_not_lt hy), List.getD_nil]
    exact Or.inl rfl

theorem cells01_of_cellAt {m : Grid} {rows cols : Nat} (hs : Shaped m rows cols)
    (h : ∀ y x, y < rows → x < cols → (cellAt m y x = 0 ∨ cellAt m y x = 1)) :
    cells01 m := by
  obtain ⟨hl, hrows⟩ := hs
  intro r hr c hc
  obtain ⟨y, hy, hyr⟩ := List.mem_iff_getElem.mp hr
  obtain ⟨x, hx, hxc⟩ := List.mem_iff_getElem.mp hc
  have hcell : cellAt m y x = c := by
    unfold cellAt
    rw [List.getD_eq_getElem _ _ hy, hyr, List.getD_eq_getElem _ _ hx, hxc]
  rw [← hcell]
  exact h y x (hl ▸ hy) ((hrows r hr) ▸ hx)

theorem countP_set_add (l : List Int) (i : Nat) (a : Int) (p : Int → Bool)
    (h : i < l.length) :
    (l.set i a).countP p + (if p (l.getD i 0) then 1 else 0)
      = l.countP p + (if p a then 1 else 0) := by
  rw [List.getD_eq_getElem _ _ h, List.countP_set _ _ _ _ h]
  by_cases hp : p l[i]
  · have hpos : 0 < l.countP p :=
      List.countP_pos_iff.mpr ⟨l[i], List.getElem_mem h, hp⟩
    simp only [hp, if_true]
    omega
  · simp [hp]

theorem countAlive_set_row (m : Grid) (y : Nat) (r : List Int)
    (hy : y < m.length) :
    countAlive (m.set y r) + (m.getD y []).countP (fun c => c == 1)
      = countAlive m + r.countP (fun c => c == 1) := by
  induction m generalizing y with
  | nil => simp at hy
  | cons a t ih =>
    cases y with
    | zero =>
      simp only [List.set_cons_zero, List.getD_cons_zero, countAlive,
        List.map_cons, List.sum_cons]
      omega
    | succ n =>
      have hn : n < t.length := by simpa using hy
      have hrec := ih n hn
      simp only [List.set_cons_succ, List.getD_cons_succ, countAlive,
        List.map_cons, List.sum_cons] at hrec ⊢
      omega

theorem countAlive_setCell (m : Grid) (y x : Nat) (v : Int)
    (hy : y < m.length) (hx : x < (m.getD y []).length) :
    countAlive (setCell m y x v) + (if cellAt m y x = 1 then 1 else 0)
      = countAlive m + (if v = 1 then 1 else 0) := by
  have h1 := countAlive_set_row m y ((m.getD y []).set x v) hy
  have h2 := countP_set_add (m.getD y []) x v (fun c => c == 1) hx
  simp only [beq_iff_eq] at h1 h2
  unfold setCell
  unfold cellAt
  omega

theorem countP_eq_sum_range (r : List Int) :
    r.countP (fun c => c == 1)
      = ∑ x ∈ Finset.range r.length, (if r.getD x 0 = 1 then 1 else 0) := by
  induction r with
  | nil => simp
  | cons a t ih =>
    rw [List.countP_cons, show (a :: t).length = t.length + 1 from rfl,
        Finset.sum_range_succ']
    simp only [List.getD_cons_succ, List.getD_cons_zero, beq_iff_eq]
    rw [ih]

theorem countAlive_eq_sum {m : Grid} {cols : Nat}
    (hrows : ∀ r ∈ m, r.length = cols) :
    countAlive m = ∑ y ∈ Finset.range m.length, ∑ x ∈ Finset.range cols,
      (if cellAt m y x = 1 then 1 else 0) := by
  induction m with
  | nil => simp [countAlive]
  | cons r t ih =>
    rw [show (r :: t).length = t.length + 1 from rfl, Finset.sum_range_succ']
    have hr : r.length = cols := hrows r (by simp)
    have ht := ih (fun row hrow => hrows row (List.mem_cons_of_mem _ hrow))
    simp only [countAlive, List.map_cons, List.sum_cons] at ht ⊢
    rw [ht, countP_eq_sum_range r, hr]
    simp only [cellAt, List.getD_cons_succ, List.getD_cons_zero]
    omega

/-! ### The generation advance, cell by cell -/

/-- The value `calculate_new_map` ends up holding at `(y, x)`: the written
branches of `check_cell`, and `0` (the fresh-buffer value) where
`check_cell` writes nothing. -/
def stepVal (st : GolState) (x y : Nat) : Int :=
  let s := sumNeighbours st.gol_map st.max_y st.max_x x y
  if cellAt st.gol_map y x = 1 then
    if s < 2 ∨ s > 3 then 0
    else if 2 ≤ s ∧ s ≤ 3 then 1
    else 0
  else
    if s = 3 then 1
    else 0

/-- The `alive` adjustment a single `check_cell` call makes. -/
def aliveDelta (st : GolState) (x y : Nat) : Int :=
  let s := sumNeighbours st.gol_map st.max_y st.max_x x y
  if cellAt st.gol_map y x = 1 then
    if s < 2 ∨ s > 3 then -1 else 0
  else
    if s = 3 then 1 else 0

theorem stepVal01 (st : GolState) (x y : Nat) :
    stepVal st x y = 0 ∨ stepVal st x y = 1 := by
  unfold stepVal
  dsimp only
  split_ifs <;> simp

theorem shaped_row_len {m : Grid} {rows cols : Nat} (h : Shaped m rows cols)
    (y : Nat) (hy : y < rows) : (m.getD y []).length = cols := by
  obtain ⟨hl, hrows⟩ := h
  have hyl : y < m.length := hl ▸ hy
  refine hrows _ ?_
  rw [List.getD_eq_getElem _ _ hyl]
  exact List.getElem_mem hyl

theorem check_cell_snd (st : GolState) (x y : Nat) (acc : Grid × Int) :
    (check_cell st x y acc).2 = acc.2 + aliveDelta st x y := by
  unfold check_cell aliveDelta
  dsimp only
  split_ifs <;> (try dsimp only) <;> ring

theorem check_cell_fst_ne (st : GolState) (x y y2 x2 : Nat) (acc : Grid × Int)
    (h : ¬(y2 = y ∧ x2 = x)) :
    cellAt (check_cell st x y acc).1 y2 x2 = cellAt acc.1 y2 x2 := by
  unfold check_cell
  dsimp only
  split_ifs <;> (try dsimp only) <;> first | rfl | exact cellAt_setCell_ne _ _ _ _ _ _ h

theorem check_cell_fst_self (st : GolState) (x y : Nat) (acc : Grid × Int)
    (hy : y < acc.1.length) (hx : x < (acc.1.getD y []).length)
    (h0 : cellAt acc.1 y x = 0) :
    cellAt (check_cell st x y acc).1 y x = stepVal st x y := by
  unfold check_cell stepVal
  dsimp only
  split_ifs <;> (try dsimp only) <;> first | exact cellAt_setCell_self _ _ _ _ hy hx | exact h0

theorem check_cell_shaped {st : GolState} {acc : Grid × Int} {rows cols : Nat}
    (h : Shaped acc.1 rows cols) (x y : Nat) :
    Shaped (check_cell st x y acc).1 rows cols := by
  unfold check_cell
  dsimp only
  split_ifs <;> (try dsimp only) <;> first | exact shaped_setCell h y x _ | exact h

theorem inner_shaped (st : GolState) (x : Nat) {rows cols : Nat} :
    ∀ (n : Nat) (acc : Grid × Int), Shaped acc.1 rows cols →
      Shaped (((List.range n).foldl (fun a yy => check_cell st x yy a) acc).1)
        rows cols := by
  intro n
  induction n with
  | zero => intro acc h; simpa using h
  | succ k ih =>
    intro acc h
    rw [List.range_succ, List.foldl_append]
    simp only [List.foldl_cons, List.foldl_nil]
    exact check_cell_shaped (ih acc h) x k

theorem inner_cell_ne (st : GolState) (x tx ty : Nat) (hne : tx ≠ x) :
    ∀ (n : Nat) (acc : Grid × Int),
      cellAt (((List.range n).foldl (fun a yy => check_cell st x yy a) acc).1)
          ty tx
        = cellAt acc.1 ty tx := by
  intro n
  induction n with
  | zero => intro acc; simp
  | succ k ih =>
    intro acc
    rw [List.range_succ, List.foldl_append]
    simp only [List.foldl_cons, List.foldl_nil]
    rw [check_cell_fst_ne st x k ty tx _ (fun hh => hne hh.2)]
    exact ih acc

theorem inner_cell_eq (st : GolState) (x ty : Nat) {rows cols : Nat}
    (hty : ty < rows) (htx : x < cols) :
    ∀ (n : Nat) (acc : Grid × Int), Shaped acc.1 rows cols →
      cellAt acc.1 ty x = 0 →
      cellAt (((List.range n).foldl (fun a yy => check_cell st x yy a) acc).1)
          ty x
        = if ty < n then stepVal st x ty else 0 := by
  intro n
  induction n with
  | zero =>
    intro acc _ h0
    simpa using h0
  | succ k ih =>
    intro acc hsh h0
    rw [List.range_succ, List.foldl_append]
    simp only [List.foldl_cons, List.foldl_nil]
    by_cases hk : ty = k
    · subst hk
      have hsh2 := inner_shaped st x ty acc hsh
      have h02 : cellAt (((List.range ty).foldl
          (fun a yy => check_cell st x yy a) acc).1) ty x = 0 := by
        rw [ih acc hsh h0, if_neg (Nat.lt_irrefl ty)]
      rw [check_cell_fst_self st x ty _ (by rw [hsh2.1]; exact hty)
          (by rw [shaped_row_len hsh2 ty hty]; exact htx) h02]
      rw [if_pos (Nat.lt_succ_self ty)]
    · rw [check_cell_fst_ne st x k ty x _ (fun hh => hk hh.1)]
      rw [ih acc hsh h0]
      by_cases hlt : ty < k
      · rw [if_pos hlt, if_pos (Nat.lt_succ_of_lt hlt)]
      · rw [if_neg hlt, if_neg (by omega)]

theorem outer_shaped (st : GolState) {rows cols : Nat} :
    ∀ (n : Nat) (acc : Grid × Int), Shaped acc.1 rows cols →
      Shaped (((List.range n).foldl
          (fun a xx => (List.range st.max_y.toNat).foldl
            (fun a2 yy => check_cell st xx yy a2) a) acc).1) rows cols := by
  intro n
  induction n with
  | zero => intro acc h; simpa using h
  | succ k ih =>
    intro acc h
    rw [List.range_succ, List.foldl_append]
    simp only [List.foldl_cons, List.foldl_nil]
    exact inner_shaped st k _ _ (ih acc h)

theorem outer_cell (st : GolState) (ty tx : Nat) {cols : Nat}
    (hty : ty < st.max_y.toNat) (htx : tx < cols) :
    ∀ (n : Nat) (acc : Grid × Int), Shaped acc.1 st.max_y.toNat cols →
      cellAt acc.1 ty tx = 0 →
      cellAt (((List.range n).foldl
          (fun a xx => (List.range st.max_y.toNat).foldl
            (fun a2 yy => check_cell st xx yy a2) a) acc).1) ty tx
        = if tx < n then stepVal st tx ty else 0 := by
  intro n
  induction n with
  | zero =>
    intro acc _ h0
    simpa using h0
  | succ k ih =>
    intro acc hsh h0
    rw [List.range_succ, List.foldl_append]
    simp only [List.foldl_cons, List.foldl_nil]
    by_cases hk : tx = k
    · subst hk
      have hsh2 := outer_shaped st tx acc hsh
      have h02 : cellAt (((List.range tx).foldl
          (fun a xx => (List.range st.max_y.toNat).foldl
            (fun a2 yy => check_cell st xx yy a2) a) acc).1) ty tx = 0 := by
        rw [ih acc hsh h0, if_neg (Nat.lt_irrefl tx)]
      rw [inner_cell_eq st tx ty hty htx st.max_y.toNat _ hsh2 h02]
      rw [if_pos hty, if_pos (Nat.lt_succ_self tx)]
    · rw [inner_cell_ne st k tx ty hk st.max_y.toNat _]
      rw [ih acc hsh h0]
      by_cases hlt : tx < k
      · rw [if_pos hlt, if_pos (Nat.lt_succ_of_lt hlt)]
      · rw [if_neg hlt, if_neg (by omega)]

/-- The cell written by the advance at any in-range position is `stepVal`,
a function of the pre-advance grid alone. -/
theorem calc_cell (st : GolState) (ty tx : Nat)
    (hty : ty < st.max_y.toNat) (htx : tx < st.max_x.toNat) :
    cellAt (calculate_new_map st).1 ty tx = stepVal st tx ty := by
  unfold calculate_new_map
  rw [outer_cell st ty tx hty htx st.max_x.toNat _
      (shaped_mkGolMap st.max_y st.max_x) (cellAt_mkGolMap st.max_y st.max_x ty tx)]
  exact if_pos htx

theorem calc_shaped (st : GolState) :
    Shaped (calculate_new_map st).1 st.max_y.toNat st.max_x.toNat := by
  unfold calculate_new_map
  exact outer_shaped st st.max_x.toNat _ (shaped_mkGolMap st.max_y st.max_x)

theorem foldl_snd_add {α : Type} (f : Grid × Int → α → Grid × Int)
    (d : α → Int) (hf : ∀ acc k, (f acc k).2 = acc.2 + d k) :
    ∀ (L : List α) (acc : Grid × Int),
      (L.foldl f acc).2 = acc.2 + (L.map d).sum := by
  intro L
  induction L with
  | nil => intro acc; simp
  | cons a t ih =>
    intro acc
    simp only [List.foldl_cons, List.map_cons, List.sum_cons]
    rw [ih (f acc a), hf acc a]
    ring

theorem calc_snd (st : GolState) :
    (calculate_new_map st).2 = st.alive +
      ((List.range st.max_x.toNat).map (fun x =>
        ((List.range st.max_y.toNat).map (fun y => aliveDelta st x y)).sum)).sum := by
  unfold calculate_new_map
  exact foldl_snd_add _ _
    (fun acc x => foldl_snd_add _ _ (fun acc2 y => check_cell_snd st x y acc2) _ acc)
    _ _

theorem range_map_sum {M : Type} [AddCommMonoid M] (f : Nat → M) (n : Nat) :
    ((List.range n).map f).sum = ∑ k ∈ Finset.range n, f k := by
  induction n with
  | zero => simp
  | succ k ih =>
    rw [List.range_succ, List.map_append, List.sum_append,
        Finset.sum_range_succ, ih]
    simp

/-! ### The specified neighbour count -/

/-- Stated from the spec wording: the sum of the 8 toroidally wrapped
neighbours of `(y, x)`, the cell itself (offset `(0, 0)`) excluded. -/
def neighbours8 (m : Grid) (my mx : Int) (x y : Nat) : Int :=
  wrapAt m my mx ((y : Int) - 1) ((x : Int) - 1) +
  wrapAt m my mx ((y : Int) - 1) (x : Int) +
  wrapAt m my mx ((y : Int) - 1) ((x : Int) + 1) +
  wrapAt m my mx (y : Int) ((x : Int) - 1) +
  wrapAt m my mx (y : Int) ((x : Int) + 1) +
  wrapAt m my mx ((y : Int) + 1) ((x : Int) - 1) +
  wrapAt m my mx ((y : Int) + 1) (x : Int) +
  wrapAt m my mx ((y : Int) + 1) ((x : Int) + 1)

theorem wrapAt_self (m : Grid) (my mx : Int) (x y : Nat)
    (hy : y < my.toNat) (hx : x < mx.toNat) :
    wrapAt m my mx (y : Int) (x : Int) = cellAt m y x := by
  unfold wrapAt
  rw [Int.emod_eq_of_lt (Int.natCast_nonneg y) (Int.lt_toNat.mp hy),
      Int.emod_eq_of_lt (Int.natCast_nonneg x) (Int.lt_toNat.mp hx)]
  simp

theorem sumNeighbours_eq (m : Grid) (my mx : Int) (x y : Nat)
    (hy : y < my.toNat) (hx : x < mx.toNat) :
    sumNeighbours m my mx x y = neighbours8 m my mx x y := by
  unfold sumNeighbours neighbours8
  simp only [List.map_cons, List.map_nil, List.sum_cons, List.sum_nil]
  rw [show (y : Int) + 0 = (y : Int) from by ring,
      show (x : Int) + 0 = (x : Int) from by ring,
      wrapAt_self m my mx x y hy hx,
      show (y : Int) + -1 = (y : Int) - 1 from by ring,
      show (x : Int) + -1 = (x : Int) - 1 from by ring]
  ring

theorem wrapAt01 {m : Grid} (h01 : cells01 m) (my mx yy xx : Int) :
    wrapAt m my mx yy xx = 0 ∨ wrapAt m my mx yy xx = 1 :=
  cellAt01 h01 (yy % my).toNat (xx % mx).toNat

theorem sumNeighbours_bounds (m : Grid) (my mx : Int) (x y : Nat)
    (hy : y < my.toNat) (hx : x < mx.toNat) (h01 : cells01 m) :
    0 ≤ sumNeighbours m my mx x y ∧ sumNeighbours m my mx x y ≤ 8 := by
  rw [sumNeighbours_eq m my mx x y hy hx]
  unfold neighbours8
  have h1 := wrapAt01 h01 my mx ((y : Int) - 1) ((x : Int) - 1)
  have h2 := wrapAt01 h01 my mx ((y : Int) - 1) (x : Int)
  have h3 := wrapAt01 h01 my mx ((y : Int) - 1) ((x : Int) + 1)
  have h4 := wrapAt01 h01 my mx (y : Int) ((x : Int) - 1)
  have h5 := wrapAt01 h01 my mx (y : Int) ((x : Int) + 1)
  have h6 := wrapAt01 h01 my mx ((y : Int) + 1) ((x : Int) - 1)
  have h7 := wrapAt01 h01 my mx ((y : Int) + 1) (x : Int)
  have h8 := wrapAt01 h01 my mx ((y : Int) + 1) ((x : Int) + 1)
  omega

theorem sumNeighbours_corner (m : Grid) (my mx : Int)
    (hmy : 0 < my.toNat) (hmx : 0 < mx.toNat) (h01 : cells01 m)
    (h00 : cellAt m 0 0 = 1) :
    1 ≤ sumNeighbours m my mx (mx.toNat - 1) (my.toNat - 1) := by
  rw [sumNeighbours_eq m my mx _ _ (by omega) (by omega)]
  unfold neighbours8
  have hmyc : ((my.toNat - 1 : Nat) : Int) + 1 = my := by
    have h1 : ((0 : Nat) : Int) < my := Int.lt_toNat.mp hmy
    have h2 : ((my.toNat : Nat) : Int) = my := Int.toNat_of_nonneg (by omega)
    omega
  have hmxc : ((mx.toNat - 1 : Nat) : Int) + 1 = mx := by
    have h1 : ((0 : Nat) : Int) < mx := Int.lt_toNat.mp hmx
    have h2 : ((mx.toNat : Nat) : Int) = mx := Int.toNat_of_nonneg (by omega)
    omega
  have hcorner : wrapAt m my mx (((my.toNat - 1 : Nat) : Int) + 1)
      (((mx.toNat - 1 : Nat) : Int) + 1) = 1 := by
    unfold wrapAt
    rw [hmyc, hmxc, Int.emod_self, Int.emod_self]
    exact h00
  have h1 := wrapAt01 h01 my mx (((my.toNat - 1 : Nat) : Int) - 1)
    (((mx.toNat - 1 : Nat) : Int) - 1)
  have h2 := wrapAt01 h01 my mx (((my.toNat - 1 : Nat) : Int) - 1)
    ((mx.toNat - 1 : Nat) : Int)
  have h3 := wrapAt01 h01 my mx (((my.toNat - 1 : Nat) : Int) - 1)
    (((mx.toNat - 1 : Nat) : Int) + 1)
  have h4 := wrapAt01 h01 my mx ((my.toNat - 1 : Nat) : Int)
    (((mx.toNat - 1 : Nat) : Int) - 1)
  have h5 := wrapAt01 h01 my mx ((my.toNat - 1 : Nat) : Int)
    (((mx.toNat - 1 : Nat) : Int) + 1)
  have h6 := wrapAt01 h01 my mx (((my.toNat - 1 : Nat) : Int) + 1)
    (((mx.toNat - 1 : Nat) : Int) - 1)
  have h7 := wrapAt01 h01 my mx (((my.toNat - 1 : Nat) : Int) + 1)
    ((mx.toNat - 1 : Nat) : Int)
  omega

/-! ### Claim C1: the generation-advance rule -/

/-- C1: after one `game_step`, a cell is alive in the new grid iff it was
alive with toroidal neighbour count 2 or 3, or dead with neighbour count
exactly 3 — where the neighbour count `neighbours8` reads only the
pre-advance grid, so no update observes another cell's updated state. -/
theorem claim_step_rule (st : GolState) (y x : Nat)
    (hy : y < st.max_y.toNat) (hx : x < st.max_x.toNat)
    (h01 : cellAt st.gol_map y x = 0 ∨ cellAt st.gol_map y x = 1) :
    (cellAt (game_step st).gol_map y x = 0 ∨
     cellAt (game_step st).gol_map y x = 1) ∧
    (cellAt (game_step st).gol_map y x = 1 ↔
      ((cellAt st.gol_map y x = 1 ∧
          2 ≤ neighbours8 st.gol_map st.max_y st.max_x x y ∧
          neighbours8 st.gol_map st.max_y st.max_x x y ≤ 3) ∨
       (cellAt st.gol_map y x = 0 ∧
          neighbours8 st.gol_map st.max_y st.max_x x y = 3))) := by
  have hcell : cellAt (game_step st).gol_map y x = stepVal st x y :=
    calc_cell st y x hy hx
  rw [hcell]
  refine ⟨stepVal01 st x y, ?_⟩
  rw [← sumNeighbours_eq st.gol_map st.max_y st.max_x x y hy hx]
  unfold stepVal
  dsimp only
  rcases h01 with h0 | h0 <;> rw [h0] <;> split_ifs
  all_goals simp_all
  all_goals omega

/-- A 2×2 grid with a single live cell at the origin. -/
def oneCell2 : GolState :=
  { gol_map := [[1, 0], [0, 0]], alive := 1, generation := 0,
    cur_y := 0, cur_x := 0, max_y := 2, max_x := 2 }

/-- Witness for `claim_step_rule` on a concrete 2×2 grid with a single
live cell: the rule holds at `(0, 0)`, whose cell dies. -/
theorem claim_step_rule_witness :
    (0 : Nat) < oneCell2.max_y.toNat ∧
    (cellAt oneCell2.gol_map 0 0 = 0 ∨ cellAt oneCell2.gol_map 0 0 = 1) ∧
    ¬ cellAt (game_step oneCell2).gol_map 0 0 = 1 := by
  refine ⟨by decide, by decide, ?_⟩
  have h := claim_step_rule oneCell2 0 0 (by decide) (by decide) (by decide)
  rw [h.2]
  decide

/-! ### Claim C3: the 3×3 "blinker" scenario -/

/-- The 3×3 grid seeded with a horizontal 3-cell row at row 1 (the
scenario of the spec). -/
def blinker : GolState :=
  { gol_map := [[0, 0, 0], [1, 1, 1], [0, 0, 0]], alive := 3,
    generation := 0, cur_y := 0, cur_x := 0, max_y := 3, max_x := 3 }

/-- C3 counterexample: on the 3×3 torus the 3×3 window of every cell covers
the whole grid, so every dead cell of the seeded row has exactly 3 live
neighbours and is born.  One advance therefore yields the fully live grid —
in particular cell `(0, 0)` is alive, where the claim requires the vertical
column `[[0,1,0],[0,1,0],[0,1,0]]` with `(0, 0)` dead. -/
theorem claim_blinker_cex :
    (game_step blinker).gol_map ≠ [[0, 1, 0], [0, 1, 0], [0, 1, 0]] ∧
    (game_step blinker).gol_map = [[1, 1, 1], [1, 1, 1], [1, 1, 1]] ∧
    cellAt (game_step blinker).gol_map 0 0 = 1 := by decide

/-- C3 amended: with wraparound neighbours included, one advance of the
3×3 blinker yields the fully live grid (9 alive), and a second advance the
all-dead grid (0 alive) — the pattern is not a period-2 oscillator on a
grid of exactly 3×3. -/
theorem claim_blinker_amended :
    (game_step blinker).gol_map = [[1, 1, 1], [1, 1, 1], [1, 1, 1]] ∧
    (game_step blinker).alive = 9 ∧
    (game_step (game_step blinker)).gol_map =
      [[0, 0, 0], [0, 0, 0], [0, 0, 0]] ∧
    (game_step (game_step blinker)).alive = 0 ∧
    (game_step (game_step blinker)).generation = 2 := by decide

/-! ### Claim C4: the neighbour count -/

/-- C4: the neighbour sum computed by `check_cell` equals the sum of the 8
toroidally wrapped neighbour reads (centre offset excluded) and lies in
`[0, 8]`; and a live cell at `(0, 0)` is counted as a neighbour of the
cell at `(height - 1, width - 1)`. -/
theorem claim_neighbour_count :
    (∀ (m : Grid) (my mx : Int) (x y : Nat), y < my.toNat → x < mx.toNat →
      cells01 m →
      sumNeighbours m my mx x y = neighbours8 m my mx x y ∧
      0 ≤ sumNeighbours m my mx x y ∧ sumNeighbours m my mx x y ≤ 8) ∧
    (∀ (m : Grid) (my mx : Int), 0 < my.toNat → 0 < mx.toNat → cells01 m →
      cellAt m 0 0 = 1 →
      1 ≤ sumNeighbours m my mx (mx.toNat - 1) (my.toNat - 1)) := by
  constructor
  · intro m my mx x y hy hx h01
    exact ⟨sumNeighbours_eq m my mx x y hy hx,
           sumNeighbours_bounds m my mx x y hy hx h01⟩
  · intro m my mx hmy hmx h01 h00
    exact sumNeighbours_corner m my mx hmy hmx h01 h00

/-- Witness for `claim_neighbour_count` on concrete 2×2 grids. -/
theorem claim_neighbour_count_witness :
    cells01 ([[1, 1], [0, 0]] : Grid) ∧
    sumNeighbours [[1, 1], [0, 0]] 2 2 0 0
      = neighbours8 [[1, 1], [0, 0]] 2 2 0 0 ∧
    0 ≤ sumNeighbours [[1, 1], [0, 0]] 2 2 0 0 ∧
    sumNeighbours [[1, 1], [0, 0]] 2 2 0 0 ≤ 8 ∧
    1 ≤ sumNeighbours [[1, 0], [0, 0]] 2 2 (2 - 1) (2 - 1) := by
  have hc1 : cells01 ([[1, 1], [0, 0]] : Grid) := by unfold cells01; decide
  have hc2 : cells01 ([[1, 0], [0, 0]] : Grid) := by unfold cells01; decide
  refine ⟨hc1, ?_, ?_, ?_, ?_⟩
  · exact (claim_neighbour_count.1 [[1, 1], [0, 0]] 2 2 0 0 (by decide)
      (by decide) hc1).1
  · exact (claim_neighbour_count.1 [[1, 1], [0, 0]] 2 2 0 0 (by decide)
      (by decide) hc1).2.1
  · exact (claim_neighbour_count.1 [[1, 1], [0, 0]] 2 2 0 0 (by decide)
      (by decide) hc1).2.2
  · exact claim_neighbour_count.2 [[1, 0], [0, 0]] 2 2 (by decide)
      (by decide) hc2 (by decide)

/-! ### Claim C10: toggling a cell -/

theorem toggle_gol_map (st : GolState) :
    (toggle_cell_at_cursor st).gol_map
      = setCell st.gol_map st.cur_y.toNat st.cur_x.toNat
          (1 - cellAt st.gol_map st.cur_y.toNat st.cur_x.toNat) := by
  unfold toggle_cell_at_cursor
  dsimp only
  split_ifs <;> rfl

theorem toggle_alive (st : GolState) :
    (toggle_cell_at_cursor st).alive
      = if 1 - cellAt st.gol_map st.cur_y.toNat st.cur_x.toNat > 0
        then st.alive + 1 else st.alive - 1 := by
  unfold toggle_cell_at_cursor
  dsimp only
  split_ifs <;> rfl

theorem toggle_fields (st : GolState) :
    (toggle_cell_at_cursor st).generation = st.generation ∧
    (toggle_cell_at_cursor st).cur_y = st.cur_y ∧
    (toggle_cell_at_cursor st).cur_x = st.cur_x ∧
    (toggle_cell_at_cursor st).max_y = st.max_y ∧
    (toggle_cell_at_cursor st).max_x = st.max_x := by
  unfold toggle_cell_at_cursor
  dsimp only
  split_ifs <;> exact ⟨rfl, rfl, rfl, rfl, rfl⟩

theorem setCell_row_len (m : Grid) (y x : Nat) (v : Int) (hy : y < m.length) :
    ((setCell m y x v).getD y []).length = (m.getD y []).length := by
  unfold setCell
  rw [getD_set_self m y _ [] hy, List.length_set]

/-- C10: `toggle_cell_at_cursor` flips exactly the cell under the cursor,
adjusts `alive` by `+1` when the cell becomes live and `-1` when it becomes
dead, and applying it twice restores every cell, the `alive` counter and
all other state fields. -/
theorem claim_toggle_involution (st : GolState)
    (hy : st.cur_y.toNat < st.gol_map.length)
    (hx : st.cur_x.toNat < (st.gol_map.getD st.cur_y.toNat []).length)
    (h01 : cellAt st.gol_map st.cur_y.toNat st.cur_x.toNat = 0 ∨
           cellAt st.gol_map st.cur_y.toNat st.cur_x.toNat = 1) :
    (cellAt (toggle_cell_at_cursor st).gol_map st.cur_y.toNat st.cur_x.toNat
        = 1 - cellAt st.gol_map st.cur_y.toNat st.cur_x.toNat) ∧
    (∀ y x, ¬(y = st.cur_y.toNat ∧ x = st.cur_x.toNat) →
      cellAt (toggle_cell_at_cursor st).gol_map y x = cellAt st.gol_map y x) ∧
    (cellAt st.gol_map st.cur_y.toNat st.cur_x.toNat = 0 →
      (toggle_cell_at_cursor st).alive = st.alive + 1 ∧
      cellAt (toggle_cell_at_cursor st).gol_map st.cur_y.toNat st.cur_x.toNat
        = 1) ∧
    (cellAt st.gol_map st.cur_y.toNat st.cur_x.toNat = 1 →
      (toggle_cell_at_cursor st).alive = st.alive - 1 ∧
      cellAt (toggle_cell_at_cursor st).gol_map st.cur_y.toNat st.cur_x.toNat
        = 0) ∧
    (∀ y x,
      cellAt (toggle_cell_at_cursor (toggle_cell_at_cursor st)).gol_map y x
        = cellAt st.gol_map y x) ∧
    (toggle_cell_at_cursor (toggle_cell_at_cursor st)).alive = st.alive ∧
    (toggle_cell_at_cursor (toggle_cell_at_cursor st)).generation
      = st.generation ∧
    (toggle_cell_at_cursor (toggle_cell_at_cursor st)).cur_y = st.cur_y ∧
    (toggle_cell_at_cursor (toggle_cell_at_cursor st)).cur_x = st.cur_x := by
  obtain ⟨hg1, hcy1, hcx1, _, _⟩ := toggle_fields st
  obtain ⟨hg2, hcy2, hcx2, _, _⟩ := toggle_fields (toggle_cell_at_cursor st)
  set cy := st.cur_y.toNat with hcy
  set cx := st.cur_x.toNat with hcx
  set v := cellAt st.gol_map cy cx with hv
  have hcell1 : cellAt (toggle_cell_at_cursor st).gol_map cy cx = 1 - v := by
    rw [toggle_gol_map st]
    exact cellAt_setCell_self _ _ _ _ hy hx
  have hne1 : ∀ y x, ¬(y = cy ∧ x = cx) →
      cellAt (toggle_cell_at_cursor st).gol_map y x = cellAt st.gol_map y x := by
    intro y x hne
    rw [toggle_gol_map st]
    exact cellAt_setCell_ne _ _ _ _ _ _ hne
  have hy2 : (toggle_cell_at_cursor st).cur_y.toNat
      < (toggle_cell_at_cursor st).gol_map.length := by
    rw [hcy1, toggle_gol_map st]
    unfold setCell
    rw [List.length_set]
    exact hy
  have hx2 : (toggle_cell_at_cursor st).cur_x.toNat
      < ((toggle_cell_at_cursor st).gol_map.getD
          (toggle_cell_at_cursor st).cur_y.toNat []).length := by
    rw [hcy1, hcx1, toggle_gol_map st, setCell_row_len _ _ _ _ hy]
    exact hx
  have hcell2 : cellAt (toggle_cell_at_cursor (toggle_cell_at_cursor st)).gol_map
      cy cx = v := by
    rw [toggle_gol_map (toggle_cell_at_cursor st), hcy1, hcx1]
    have := cellAt_setCell_self (toggle_cell_at_cursor st).gol_map cy cx
      (1 - cellAt (toggle_cell_at_cursor st).gol_map cy cx)
      (by rw [hcy1] at hy2; exact hy2) (by rw [hcy1, hcx1] at hx2; exact hx2)
    rw [this, hcell1]
    ring
  have hne2 : ∀ y x, ¬(y = cy ∧ x = cx) →
      cellAt (toggle_cell_at_cursor (toggle_cell_at_cursor st)).gol_map y x
        = cellAt st.gol_map y x := by
    intro y x hne
    rw [toggle_gol_map (toggle_cell_at_cursor st), hcy1, hcx1]
    rw [cellAt_setCell_ne _ _ _ _ _ _ hne]
    exact hne1 y x hne
  refine ⟨hcell1, hne1, ?_, ?_, ?_, ?_, hg2.trans hg1,
      hcy2.trans hcy1, hcx2.trans hcx1⟩
  · intro h0
    rw [hcell1, toggle_alive st, ← hv, h0]
    norm_num
  · intro h1
    rw [hcell1, toggle_alive st, ← hv, h1]
    norm_num
  · intro y x
    by_cases hne : y = cy ∧ x = cx
    · obtain ⟨hh1, hh2⟩ := hne
      subst hh1
      subst hh2
      exact hcell2
    · exact hne2 y x hne
  · rw [toggle_alive (toggle_cell_at_cursor st), hcy1, hcx1, hcell1,
        toggle_alive st, ← hv]
    rcases h01 with h0 | h0 <;> rw [h0] <;> norm_num

/-- A 5×5 all-dead grid with the cursor at the centre. -/
def dead5 : GolState :=
  { gol_map := mkGolMap 5 5, alive := 0, generation := 0,
    cur_y := 2, cur_x := 2, max_y := 5, max_x := 5 }

/-- Witness for `claim_toggle_involution` on a concrete 5×5 grid. -/
theorem claim_toggle_involution_witness :
    dead5.cur_y.toNat < dead5.gol_map.length ∧
    cellAt dead5.gol_map 2 2 = 0 ∧
    (toggle_cell_at_cursor dead5).alive = 1 ∧
    cellAt (toggle_cell_at_cursor dead5).gol_map 2 2 = 1 ∧
    (toggle_cell_at_cursor (toggle_cell_at_cursor dead5)).alive = 0 := by
  have h := claim_toggle_involution dead5 (by decide) (by decide)
    (Or.inl (by decide))
  have h1 := h.2.2.1 (by decide)
  refine ⟨by decide, by decide, ?_, ?_, ?_⟩
  · rw [h1.1]; decide
  · exact h1.2
  · rw [h.2.2.2.2.2.1]; decide

/-! ### Claim C5: construction -/

/-- Result type for the specified constructor. -/
inductive InitResult where
  | ok (g : Grid) : InitResult
  | invalidDimension : InitResult
deriving Repr, DecidableEq

/-- Modelled from the spec: `new(width, height)` yields an all-dead grid
and "Fails with `InvalidDimension` if either extent is ≤ 0". -/
def new_spec (width height : Int) : InitResult :=
  if width ≤ 0 ∨ height ≤ 0 then InitResult.invalidDimension
  else InitResult.ok (mkGolMap height width)

/-- C5 counterexample: `__init__` contains no dimension check — at extents
`(0, 0)` construction succeeds and silently yields the empty grid, whereas
the claim (formalised by `new_spec`) demands an `InvalidDimension` failure
aborting startup. -/
theorem claim_construction_cex :
    (initState 0 0).gol_map = ([] : Grid) ∧
    (initState 0 0).alive = 0 ∧
    (initState 0 0).generation = 0 ∧
    new_spec 0 0 = InitResult.invalidDimension := by decide

/-- C5 amended: construction never fails for any extents; it yields the
all-dead counter-zeroed grid with `max(height, 0)` rows of `max(width, 0)`
cells (so nonpositive extents silently give a degenerate empty grid rather
than an `InvalidDimension` error, and positive extents give the all-dead
grid of the stated size). -/
theorem claim_construction_amended (my mx : Int) :
    (∀ y x, cellAt (initState my mx).gol_map y x = 0) ∧
    (initState my mx).alive = 0 ∧
    (initState my mx).generation = 0 ∧
    countAlive (initState my mx).gol_map = 0 ∧
    Shaped (initState my mx).gol_map my.toNat mx.toNat :=
  ⟨fun y x => cellAt_mkGolMap my mx y x, rfl, rfl,
   countAlive_mkGolMap my mx, shaped_mkGolMap my mx⟩

/-- Witness for `claim_construction_amended` at extents 5 and 4. -/
theorem claim_construction_amended_witness :
    countAlive (initState 5 4).gol_map = 0 ∧ (initState 5 4).alive = 0 :=
  ⟨(claim_construction_amended 5 4).2.2.2.1, (claim_construction_amended 5 4).2.1⟩

/-! ### Claims C6 and C7: the count-prefixed motion grammar -/

theorem golReadNum_digits :
    ∀ (ds : List Nat) (ch t : Nat) (rest : List Nat),
      isDigitCode ch = true → (∀ c ∈ ds, isDigitCode c = true) →
      isDigitCode t = false →
      golReadNum ch (ds ++ t :: rest) = (ch :: (ds ++ [t]), t, rest) := by
  intro ds
  induction ds with
  | nil =>
    intro ch t rest hch _ ht
    rw [List.nil_append, golReadNum, if_pos hch]
    dsimp only
    rw [golReadNum.eq_def]
    dsimp only
    rw [if_neg (by simp [ht])]
    rfl
  | cons d ds2 ih =>
    intro ch t rest hch hds ht
    rw [List.cons_append, golReadNum, if_pos hch]
    dsimp only
    rw [ih d t rest (hds d (by simp)) (fun c hc => hds c (by simp [hc])) ht]
    rfl

/-- C6 amended: the jump magnitude is applied for the four textual
mnemonics `h`/`j`/`k`/`l` only (the counterexample shows arrow keys after
digits move nothing); for those, the cursor moves by the base-10 value of
the typed digit string, wrapping modulo the grid extent. -/
theorem claim_count_motion_amended (st : GolState) (ch : Nat)
    (ds rest : List Nat) (hch : isDigitCode ch = true)
    (hds : ∀ c ∈ ds, isDigitCode c = true) :
    move_multiple st ch (ds ++ 104 :: rest)
      = (move_cursor_by st 0 (-(decimalVal (ch :: ds))), rest) ∧
    move_multiple st ch (ds ++ 106 :: rest)
      = (move_cursor_by st (decimalVal (ch :: ds)) 0, rest) ∧
    move_multiple st ch (ds ++ 107 :: rest)
      = (move_cursor_by st (-(decimalVal (ch :: ds))) 0, rest) ∧
    move_multiple st ch (ds ++ 108 :: rest)
      = (move_cursor_by st 0 (decimalVal (ch :: ds)), rest) := by
  have hdl : ∀ t : Nat, (ch :: (ds ++ [t])).dropLast = ch :: ds := by
    intro t
    rw [show ch :: (ds ++ [t]) = (ch :: ds) ++ [t] from rfl,
        List.dropLast_concat]
  refine ⟨?_, ?_, ?_, ?_⟩
  · unfold move_multiple
    rw [golReadNum_digits ds ch 104 rest hch hds (by decide)]
    dsimp only
    rw [hdl, if_pos rfl]
  · unfold move_multiple
    rw [golReadNum_digits ds ch 106 rest hch hds (by decide)]
    dsimp only
    rw [hdl, if_neg (by decide), if_pos rfl]
  · unfold move_multiple
    rw [golReadNum_digits ds ch 107 rest hch hds (by decide)]
    dsimp only
    rw [hdl, if_neg (by decide), if_neg (by decide), if_pos rfl]
  · unfold move_multiple
    rw [golReadNum_digits ds ch 108 rest hch hds (by decide)]
    dsimp only
    rw [hdl, if_neg (by decide), if_neg (by decide), if_neg (by decide),
        if_pos rfl]

/-- An 8×8 all-dead grid with the cursor at the origin (the claim's
scenario grid). -/
def grid8 : GolState :=
  { gol_map := mkGolMap 8 8, alive := 0, generation := 0,
    cur_y := 0, cur_x := 0, max_y := 8, max_x := 8 }

/-- C6 counterexample: typing `"3"` followed by the `KEY_DOWN` arrow key
(curses code 258) moves nothing — `move_multiple` recognises only the
`h`/`j`/`k`/`l` mnemonics, so the cursor stays at row 0 where the claim
requires row 3. -/
theorem claim_count_motion_cex :
    (move_multiple grid8 51 [258]).1 = grid8 ∧
    (move_multiple grid8 51 [258]).1.cur_y = 0 ∧
    ¬ (move_multiple grid8 51 [258]).1.cur_y = 3 := by decide

/-- Witness for `claim_count_motion_amended`: the three digit-motion
scenarios (`"3" j`, `"6" j`, `"10" j`) on the 8-row grid land on rows 3, 6
and 2. -/
theorem claim_count_motion_amended_witness :
    isDigitCode 51 = true ∧
    (move_multiple grid8 51 [106]).1.cur_y = 3 ∧
    (move_multiple grid8 54 [106]).1.cur_y = 6 ∧
    (move_multiple grid8 49 [48, 106]).1.cur_y = 2 := by
  refine ⟨by decide, ?_, ?_, ?_⟩
  · have h := (claim_count_motion_amended grid8 51 [] []
      (by decide) (by decide)).2.1
    rw [show (106 : Nat) :: ([] : List Nat) = [] ++ 106 :: [] from rfl, h]
    decide
  · have h := (claim_count_motion_amended grid8 54 [] []
      (by decide) (by decide)).2.1
    rw [show (106 : Nat) :: ([] : List Nat) = [] ++ 106 :: [] from rfl, h]
    decide
  · have h := (claim_count_motion_amended grid8 49 [48] []
      (by decide) (by decide)).2.1
    rw [show (48 : Nat) :: (106 : Nat) :: ([] : List Nat)
          = [48] ++ 106 :: [] from rfl, h]
    decide

/-- The full `chr(ch).isnumeric()` on the key-code range curses `getch`
can return (bytes 0–255 and the `KEY_` constants up to 633): the ASCII
digits plus the six Latin-1 numeric characters `²` `³` `¹` `¼` `½` `¾`
(codes 178, 179, 185, 188, 189, 190); no other code below 634 is
numeric. -/
def isNumericCode (c : Nat) : Bool :=
  isDigitCode c || c == 178 || c == 179 || c == 185 || c == 188 ||
  c == 189 || c == 190

/-- The digit-collecting loop of `move_multiple` under the full
`isnumeric` test: numeric non-digit keys do not terminate collection. -/
def golReadNumFull : Nat → List Nat → List Nat × Nat × List Nat
  | ch, inp =>
    if isNumericCode ch then
      match inp with
      | [] => ([ch], ch, [])
      | c :: rest =>
        let r := golReadNumFull c rest
        (ch :: r.1, r.2.1, r.2.2)
    else ([ch], ch, inp)

/-- `int(num)` on the collected numeric string: the base-10 value when the
string is nonempty and every character is an ASCII decimal digit; `none`
is the `ValueError` that `int()` raises otherwise — the characters `²` `³`
`¹` `¼` `½` `¾` pass `isnumeric()` but are rejected by `int()`. -/
def int_of_num (ds : List Nat) : Option Int :=
  if ds.isEmpty then none
  else if ds.all (fun c => isDigitCode c) then some (decimalVal ds)
  else none

/-- `move_multiple` with the full `isnumeric` test and Python's exception
behaviour explicit: `none` is the uncaught `ValueError` from `int(num)`,
which Python evaluates only inside a direction branch.  On streams free of
the six numeric non-digit codes this agrees with `move_multiple`
(`move_multiple_agree`). -/
def move_multiple_exc (st : GolState) (ch : Nat) (inp : List Nat) :
    Option (GolState × List Nat) :=
  let r := golReadNumFull ch inp
  let num := r.1.dropLast
  let t := r.2.1
  if t = 104 then
    (int_of_num num).map (fun n => (move_cursor_by st 0 (-n), r.2.2))
  else if t = 106 then
    (int_of_num num).map (fun n => (move_cursor_by st n 0, r.2.2))
  else if t = 107 then
    (int_of_num num).map (fun n => (move_cursor_by st (-n) 0, r.2.2))
  else if t = 108 then
    (int_of_num num).map (fun n => (move_cursor_by st 0 n, r.2.2))
  else some (st, r.2.2)

theorem isDigit_isNumeric {c : Nat} (h : isDigitCode c = true) :
    isNumericCode c = true := by
  unfold isNumericCode
  rw [h]
  rfl

theorem golReadNumFull_numerics :
    ∀ (ds : List Nat) (ch t : Nat) (rest : List Nat),
      isNumericCode ch = true → (∀ c ∈ ds, isNumericCode c = true) →
      isNumericCode t = false →
      golReadNumFull ch (ds ++ t :: rest) = (ch :: (ds ++ [t]), t, rest) := by
  intro ds
  induction ds with
  | nil =>
    intro ch t rest hch _ ht
    rw [List.nil_append, golReadNumFull, if_pos hch]
    dsimp only
    rw [golReadNumFull.eq_def]
    dsimp only
    rw [if_neg (by simp [ht])]
    rfl
  | cons d ds2 ih =>
    intro ch t rest hch hds ht
    rw [List.cons_append, golReadNumFull, if_pos hch]
    dsimp only
    rw [ih d t rest (hds d (by simp)) (fun c hc => hds c (by simp [hc])) ht]
    rfl

/-- On the inputs the approved claims use — ASCII digits followed by a
non-numeric terminator — the restricted model `move_multiple` agrees with
the exception-explicit `move_multiple_exc`, which never fails there. -/
theorem move_multiple_agree (st : GolState) (ch t : Nat)
    (ds rest : List Nat) (hch : isDigitCode ch = true)
    (hds : ∀ c ∈ ds, isDigitCode c = true) (ht : isNumericCode t = false) :
    move_multiple_exc st ch (ds ++ t :: rest)
      = some (move_multiple st ch (ds ++ t :: rest)) := by
  have htd : isDigitCode t = false := by
    rcases h2 : isDigitCode t with _ | _
    · rfl
    · rw [isDigit_isNumeric h2] at ht
      exact absurd ht (by simp)
  unfold move_multiple_exc move_multiple
  rw [golReadNumFull_numerics ds ch t rest (isDigit_isNumeric hch)
        (fun c hc => isDigit_isNumeric (hds c hc)) ht,
      golReadNum_digits ds ch t rest hch hds htd]
  dsimp only
  have hdl : (ch :: (ds ++ [t])).dropLast = ch :: ds := by
    rw [show ch :: (ds ++ [t]) = (ch :: ds) ++ [t] from rfl,
        List.dropLast_concat]
  have hnum : int_of_num (ch :: ds) = some (decimalVal (ch :: ds)) := by
    unfold int_of_num
    rw [if_neg (by simp), if_pos ?_]
    rw [List.all_eq_true]
    intro c hc
    rcases List.mem_cons.mp hc with rfl | hc2
    · exact hch
    · exact hds c hc2
  rw [hdl]
  split_ifs <;> simp [hnum]

/-- C7 counterexample: the digit `"3"` followed by the numeric non-digit
key `²` (code 178 — not a recognized direction) and then `j` is not
silently discarded: `²` passes `chr(ch).isnumeric()` so collection
continues, and `int("3²")` then raises an uncaught `ValueError` (`none`),
where the claim requires no state change and no failure. -/
theorem claim_malformed_motion_cex :
    isDigitCode 51 = true ∧
    isDigitCode 178 = false ∧
    ¬ (178 = 104 ∨ 178 = 106 ∨ 178 = 107 ∨ 178 = 108) ∧
    isNumericCode 178 = true ∧
    move_multiple_exc grid8 51 [178, 106] = none := by decide

/-- C7 amended: a numeric sequence terminated by a key that is neither
numeric nor one of the `h`/`j`/`k`/`l` directions is discarded with the
state — cursor, grid cells, alive counter, generation counter — returned
entirely unchanged and no failure, because `int(num)` is never evaluated;
but the numeric non-digit keys (`²` `³` `¹` `¼` `½` `¾`) do not terminate
collection, and when a direction key ends a collected string containing
one of them, `int(num)` raises an uncaught `ValueError` instead of
silently ignoring the input. -/
theorem claim_malformed_motion_amended (st : GolState) (ch t : Nat)
    (ds rest : List Nat) (hch : isNumericCode ch = true)
    (hds : ∀ c ∈ ds, isNumericCode c = true) :
    (isNumericCode t = false → t ≠ 104 → t ≠ 106 → t ≠ 107 → t ≠ 108 →
      move_multiple_exc st ch (ds ++ t :: rest) = some (st, rest)) ∧
    ((t = 104 ∨ t = 106 ∨ t = 107 ∨ t = 108) →
      ¬ (ch :: ds).all (fun c => isDigitCode c) = true →
      move_multiple_exc st ch (ds ++ t :: rest) = none) := by
  have hdl : (ch :: (ds ++ [t])).dropLast = ch :: ds := by
    rw [show ch :: (ds ++ [t]) = (ch :: ds) ++ [t] from rfl,
        List.dropLast_concat]
  constructor
  · intro ht h1 h2 h3 h4
    unfold move_multiple_exc
    rw [golReadNumFull_numerics ds ch t rest hch hds ht]
    dsimp only
    rw [if_neg h1, if_neg h2, if_neg h3, if_neg h4]
  · intro hdir hbad
    have hnum : int_of_num (ch :: ds) = none := by
      unfold int_of_num
      rw [if_neg (by simp), if_neg hbad]
    rcases hdir with rfl | rfl | rfl | rfl <;>
    · unfold move_multiple_exc
      rw [golReadNumFull_numerics ds ch _ rest hch hds (by decide)]
      dsimp only
      rw [hdl]
      split_ifs <;> first | simp [hnum] | omega

/-- Witness for `claim_malformed_motion_amended`: on the 8×8 grid, `"3"`
then `q` is silently discarded, while `"3"` then `²` then `j` fails. -/
theorem claim_malformed_motion_amended_witness :
    isNumericCode 51 = true ∧ isNumericCode 113 = false ∧
    move_multiple_exc grid8 51 [113] = some (grid8, []) ∧
    isNumericCode 178 = true ∧
    move_multiple_exc grid8 51 [178, 106] = none := by
  refine ⟨by decide, by decide, ?_, by decide, ?_⟩
  · have h := (claim_malformed_motion_amended grid8 51 113 [] []
      (by decide) (by decide)).1 (by decide) (by decide) (by decide)
      (by decide) (by decide)
    simpa using h
  · have h := (claim_malformed_motion_amended grid8 51 106 [178] []
      (by decide) (by decide)).2 (Or.inr (Or.inl rfl)) (by decide)
    simpa using h

/-! ### Claims C8 and C9: the dispatcher -/

theorem move_multiple_generation (st : GolState) (ch : Nat) (inp : List Nat) :
    (move_multiple st ch inp).1.generation = st.generation := by
  unfold move_multiple
  dsimp only
  split_ifs <;> rfl

/-- No generation advance ever happens inside the manual-edit loop: it only
moves the cursor and toggles cells. -/
theorem mdl_go_generation : ∀ (n : Nat) (inp : List Nat) (st : GolState),
    inp.length ≤ n → (mdl_go st inp).generation = st.generation := by
  intro n
  induction n with
  | zero =>
    intro inp st h
    have hnil : inp = [] := List.length_eq_zero.mp (Nat.le_zero.mp h)
    subst hnil
    rw [mdl_go]
  | succ k ih =>
    intro inp st h
    match inp with
    | [] => rw [mdl_go]
    | com :: rest =>
      rw [mdl_go]
      have hr : rest.length ≤ k := by simpa using h
      dsimp only
      split_ifs
      · exact ih rest _ hr
      · exact ih rest _ hr
      · exact ih rest _ hr
      · exact ih rest _ hr
      · rw [ih rest _ hr, (toggle_fields st).1]
      · rfl
      · have h2 : (move_multiple st com rest).2 = (golReadNum com rest).2.2 :=
          rfl
        have hlen : (move_multiple st com rest).2.length ≤ k := by
          rw [h2]
          exact le_trans (golReadNum_rem_le com rest) hr
        rw [ih _ _ hlen, move_multiple_generation]
      · exact ih rest _ hr

/-- C8 amended: the edit key `e` runs the blocking edit session, during
which no generation advance happens, and after the confirm key the
dispatcher sets `is_paused := False` — the simulation resumes
automatically rather than transitioning to the paused state. -/
theorem claim_edit_resumes_amended (st : GolState) (running is_paused : Bool)
    (inp : List Nat) (rand : Nat) (picks : Nat → Nat × Nat) :
    (fetch_input st running is_paused 101 inp rand picks).2.2 = false ∧
    (fetch_input st running is_paused 101 inp rand picks).1.generation
      = st.generation := by
  have h : fetch_input st running is_paused 101 inp rand picks
      = (map_drawer_loop st inp, running, false) := by
    unfold fetch_input
    norm_num
  rw [h]
  exact ⟨rfl, mdl_go_generation inp.length inp st le_rfl⟩

/-- C8 counterexample: from a paused running state, the edit key followed
by the confirm key `q` leaves the machine with `is_paused = false`
(`elif ch == ord('e'): ... is_paused = False`), where the claim requires
the transition to Paused. -/
theorem claim_edit_resumes_cex :
    (fetch_input dead5 true true 101 [113] 0 (fun k => (k, k))).2.2
      = false ∧
    ¬ (fetch_input dead5 true true 101 [113] 0 (fun k => (k, k))).2.2
      = true := by
  have h : fetch_input dead5 true true 101 [113] 0 (fun k => (k, k))
      = (map_drawer_loop dead5 [113], true, false) := by
    unfold fetch_input
    norm_num
  rw [h]
  exact ⟨rfl, by simp⟩

/-- C9: the clear key `c` resets the generation counter to 0, the alive
counter to 0 and every cell to dead, and forces the paused state. -/
theorem claim_clear_resets (st : GolState) (running is_paused : Bool)
    (inp : List Nat) (rand : Nat) (picks : Nat → Nat × Nat) :
    (fetch_input st running is_paused 99 inp rand picks).1.generation = 0 ∧
    (fetch_input st running is_paused 99 inp rand picks).1.alive = 0 ∧
    (∀ y x, cellAt
      (fetch_input st running is_paused 99 inp rand picks).1.gol_map y x
        = 0) ∧
    (fetch_input st running is_paused 99 inp rand picks).2.2 = true := by
  have h : fetch_input st running is_paused 99 inp rand picks
      = (clear_map st, running, true) := by
    unfold fetch_input
    norm_num
  rw [h]
  exact ⟨rfl, rfl, fun y x => cellAt_mkGolMap _ _ _ _, rfl⟩

/-! ### Claim C2: the alive counter tracks the full-scan count -/

/-- The core operations reachable from the interactive loop: toggle the
cell under the cursor, advance one generation, clear, random reseed (its
randomness passed as data), cursor motion. -/
inductive GolOp where
  | toggle : GolOp
  | advance : GolOp
  | clear : GolOp
  | reseed (rand : Nat) (picks : Nat → Nat × Nat) : GolOp
  | move (dy dx : Int) : GolOp

def applyOp (st : GolState) : GolOp → GolState
  | GolOp.toggle => toggle_cell_at_cursor st
  | GolOp.advance => game_step st
  | GolOp.clear => clear_map st
  | GolOp.reseed rand picks => generate_random_map st rand picks
  | GolOp.move dy dx => move_cursor_by st dy dx

/-- The only assumption on an operation's randomness: the
`randint(0, max_x - 1)` / `randint(0, max_y - 1)` picks are in range. -/
def OpValid (my mx : Int) : GolOp → Prop
  | GolOp.reseed _ picks =>
      ∀ i, ((picks i).1 : Int) < mx ∧ ((picks i).2 : Int) < my
  | _ => True

/-- The state invariant: positive extents, dense 0/1 grid of that shape,
`alive` equal to the full-scan live count, cursor in range. -/
def Inv (st : GolState) : Prop :=
  0 < st.max_y ∧ 0 < st.max_x ∧
  Shaped st.gol_map st.max_y.toNat st.max_x.toNat ∧
  cells01 st.gol_map ∧
  st.alive = (countAlive st.gol_map : Int) ∧
  0 ≤ st.cur_y ∧ st.cur_y < st.max_y ∧ 0 ≤ st.cur_x ∧ st.cur_x < st.max_x

theorem Inv_initState (my mx : Int) (hmy : 0 < my) (hmx : 0 < mx) :
    Inv (initState my mx) := by
  unfold Inv initState
  refine ⟨hmy, hmx, shaped_mkGolMap my mx, cells01_mkGolMap my mx, ?_,
    ?_, ?_, ?_, ?_⟩
  · rw [countAlive_mkGolMap]
    rfl
  all_goals dsimp only
  all_goals omega

theorem Inv_move {st : GolState} (h : Inv st) (dy dx : Int) :
    Inv (move_cursor_by st dy dx) := by
  obtain ⟨hmy, hmx, hsh, h01, hal, _, _, _, _⟩ := h
  unfold Inv move_cursor_by
  refine ⟨hmy, hmx, hsh, h01, hal, ?_, ?_, ?_, ?_⟩
  · exact Int.emod_nonneg _ (ne_of_gt hmy)
  · exact Int.emod_lt_of_pos _ hmy
  · exact Int.emod_nonneg _ (ne_of_gt hmx)
  · exact Int.emod_lt_of_pos _ hmx

theorem Inv_clear {st : GolState} (h : Inv st) : Inv (clear_map st) := by
  obtain ⟨hmy, hmx, _, _, _, hcy0, hcyl, hcx0, hcxl⟩ := h
  unfold Inv clear_map
  refine ⟨hmy, hmx, shaped_mkGolMap _ _, cells01_mkGolMap _ _, ?_,
    hcy0, hcyl, hcx0, hcxl⟩
  rw [countAlive_mkGolMap]
  rfl

theorem Inv_toggle {st : GolState} (h : Inv st) :
    Inv (toggle_cell_at_cursor st) := by
  obtain ⟨hmy, hmx, hsh, h01, hal, hcy0, hcyl, hcx0, hcxl⟩ := h
  obtain ⟨hg, hcy, hcx, hmyf, hmxf⟩ := toggle_fields st
  have hcyn : st.cur_y.toNat < st.max_y.toNat := by omega
  have hcxn : st.cur_x.toNat < st.max_x.toNat := by omega
  have hyl : st.cur_y.toNat < st.gol_map.length := by
    rw [hsh.1]
    exact hcyn
  have hxl : st.cur_x.toNat < (st.gol_map.getD st.cur_y.toNat []).length := by
    rw [shaped_row_len hsh _ hcyn]
    exact hcxn
  have hv := cellAt01 h01 st.cur_y.toNat st.cur_x.toNat
  unfold Inv
  rw [hcy, hcx, hmyf, hmxf, toggle_gol_map st, toggle_alive st]
  refine ⟨hmy, hmx, shaped_setCell hsh _ _ _, ?_, ?_,
    hcy0, hcyl, hcx0, hcxl⟩
  · refine cells01_of_cellAt (shaped_setCell hsh _ _ _) ?_
    intro y x hyr hxr
    by_cases hc : y = st.cur_y.toNat ∧ x = st.cur_x.toNat
    · obtain ⟨h1, h2⟩ := hc
      subst h1
      subst h2
      rw [cellAt_setCell_self _ _ _ _ hyl hxl]
      rcases hv with h0 | h0 <;> rw [h0] <;> norm_num
    · rw [cellAt_setCell_ne _ _ _ _ _ _ hc]
      exact cellAt01 h01 y x
  · have hcnt := countAlive_setCell st.gol_map st.cur_y.toNat st.cur_x.toNat
      (1 - cellAt st.gol_map st.cur_y.toNat st.cur_x.toNat) hyl hxl
    rcases hv with h0 | h0 <;> rw [h0] at hcnt ⊢ <;> norm_num at hcnt ⊢ <;>
      omega

theorem aliveDelta_eq (st : GolState) (x y : Nat)
    (h01 : cellAt st.gol_map y x = 0 ∨ cellAt st.gol_map y x = 1) :
    aliveDelta st x y = stepVal st x y - cellAt st.gol_map y x := by
  unfold aliveDelta stepVal
  dsimp only
  rcases h01 with h0 | h0 <;> rw [h0] <;> split_ifs <;> omega

/-- The full-scan count as an integer double sum of the cell values. -/
theorem countAliveZ_eq {m : Grid} {rows cols : Nat} (hs : Shaped m rows cols)
    (h01 : cells01 m) :
    (countAlive m : Int)
      = ∑ y ∈ Finset.range rows, ∑ x ∈ Finset.range cols, cellAt m y x := by
  obtain ⟨hl, hrows⟩ := hs
  have h := countAlive_eq_sum hrows
  rw [hl] at h
  rw [h]
  push_cast
  refine Finset.sum_congr rfl ?_
  intro y _
  refine Finset.sum_congr rfl ?_
  intro x _
  rcases cellAt01 h01 y x with h0 | h0 <;> rw [h0] <;> norm_num

theorem Inv_advance {st : GolState} (h : Inv st) : Inv (game_step st) := by
  obtain ⟨hmy, hmx, hsh, h01, hal, hcy0, hcyl, hcx0, hcxl⟩ := h
  have hshape2 := calc_shaped st
  have h01new : cells01 (calculate_new_map st).1 := by
    refine cells01_of_cellAt hshape2 ?_
    intro y x hyr hxr
    rw [calc_cell st y x hyr hxr]
    exact stepVal01 st x y
  have hgm : (game_step st).gol_map = (calculate_new_map st).1 := rfl
  have hav : (game_step st).alive = (calculate_new_map st).2 := rfl
  unfold Inv
  rw [hgm, hav]
  refine ⟨hmy, hmx, hshape2, h01new, ?_, hcy0, hcyl, hcx0, hcxl⟩
  have hsum := calc_snd st
  simp only [range_map_sum] at hsum
  have hdelta : ∑ x ∈ Finset.range st.max_x.toNat,
      ∑ y ∈ Finset.range st.max_y.toNat, aliveDelta st x y
      = (∑ x ∈ Finset.range st.max_x.toNat,
          ∑ y ∈ Finset.range st.max_y.toNat, stepVal st x y)
        - ∑ x ∈ Finset.range st.max_x.toNat,
            ∑ y ∈ Finset.range st.max_y.toNat, cellAt st.gol_map y x := by
    rw [← Finset.sum_sub_distrib]
    refine Finset.sum_congr rfl ?_
    intro x _
    rw [← Finset.sum_sub_distrib]
    refine Finset.sum_congr rfl ?_
    intro y _
    exact aliveDelta_eq st x y (cellAt01 h01 y x)
  have hold : ∑ x ∈ Finset.range st.max_x.toNat,
      ∑ y ∈ Finset.range st.max_y.toNat, cellAt st.gol_map y x
      = (countAlive st.gol_map : Int) := by
    rw [countAliveZ_eq hsh h01, Finset.sum_comm]
  have hnew : ((countAlive (calculate_new_map st).1 : Nat) : Int)
      = ∑ x ∈ Finset.range st.max_x.toNat,
          ∑ y ∈ Finset.range st.max_y.toNat, stepVal st x y := by
    rw [countAliveZ_eq hshape2 h01new]
    rw [Finset.sum_comm]
    refine Finset.sum_congr rfl ?_
    intro x hxm
    refine Finset.sum_congr rfl ?_
    intro y hym
    exact calc_cell st y x (Finset.mem_range.mp hym) (Finset.mem_range.mp hxm)
  rw [hsum, hdelta, hold, hnew, hal]
  ring

theorem try_set_inv (picks : Nat → Nat × Nat) (bound : Nat) (my mx : Int)
    (hpicks : ∀ i, ((picks i).1 : Int) < mx ∧ ((picks i).2 : Int) < my) :
    ∀ (gas fail : Nat), bound ≤ fail + gas →
      ∀ (st : GolState) (x y idx : Nat), Inv st →
        st.max_y = my → st.max_x = mx →
        ((x : Int) < mx) → ((y : Int) < my) →
        Inv (try_set_cell picks bound st x y fail idx).1 ∧
        (try_set_cell picks bound st x y fail idx).1.max_y = my ∧
        (try_set_cell picks bound st x y fail idx).1.max_x = mx := by
  intro gas
  induction gas with
  | zero =>
    intro fail hge st x y idx hinv hmyeq hmxeq hx hy
    rw [try_set_cell, dif_neg (by omega)]
    exact ⟨hinv, hmyeq, hmxeq⟩
  | succ g ih =>
    intro fail hge st x y idx hinv hmyeq hmxeq hx hy
    rw [try_set_cell]
    by_cases hf : fail < bound
    · rw [dif_pos hf]
      by_cases hc : cellAt st.gol_map y x < 1
      · rw [if_pos hc]
        obtain ⟨hmy, hmx, hsh, h01, hal, hcy0, hcyl, hcx0, hcxl⟩ := hinv
        have hyn : y < st.max_y.toNat := by omega
        have hxn : x < st.max_x.toNat := by omega
        have hyl : y < st.gol_map.length := by
          rw [hsh.1]
          exact hyn
        have hxl : x < (st.gol_map.getD y []).length := by
          rw [shaped_row_len hsh _ hyn]
          exact hxn
        have hv : cellAt st.gol_map y x = 0 := by
          rcases cellAt01 h01 y x with h0 | h0
          · exact h0
          · omega
        refine ⟨⟨hmy, hmx, shaped_setCell hsh _ _ _, ?_, ?_,
          hcy0, hcyl, hcx0, hcxl⟩, hmyeq, hmxeq⟩
        · refine cells01_of_cellAt (shaped_setCell hsh _ _ _) ?_
          intro y2 x2 _ _
          by_cases hcc : y2 = y ∧ x2 = x
          · obtain ⟨e1, e2⟩ := hcc
            subst e1
            subst e2
            rw [cellAt_setCell_self _ _ _ _ hyl hxl]
            exact Or.inr rfl
          · rw [cellAt_setCell_ne _ _ _ _ _ _ hcc]
            exact cellAt01 h01 y2 x2
        · have hcnt := countAlive_setCell st.gol_map y x 1 hyl hxl
          rw [hv] at hcnt
          norm_num at hcnt
          dsimp only
          omega
      · rw [if_neg hc]
        have h1 := hpicks idx
        exact ih (fail + 1) (by omega) st (picks idx).1 (picks idx).2 (idx + 1)
          hinv hmyeq hmxeq h1.1 h1.2
    · rw [dif_neg hf]
      exact ⟨hinv, hmyeq, hmxeq⟩

theorem reseed_fold_inv (picks : Nat → Nat × Nat) (bound : Nat) (my mx : Int)
    (hpicks : ∀ i, ((picks i).1 : Int) < mx ∧ ((picks i).2 : Int) < my) :
    ∀ (L : List Nat) (acc : GolState × Nat × Nat),
      Inv acc.1 → acc.1.max_y = my → acc.1.max_x = mx →
      Inv ((L.foldl (fun acc2 _ =>
          let p := picks acc2.2.2
          let r := try_set_cell picks bound acc2.1 p.1 p.2 acc2.2.1
            (acc2.2.2 + 1)
          (r.1, r.2.1, r.2.2)) acc).1) ∧
      ((L.foldl (fun acc2 _ =>
          let p := picks acc2.2.2
          let r := try_set_cell picks bound acc2.1 p.1 p.2 acc2.2.1
            (acc2.2.2 + 1)
          (r.1, r.2.1, r.2.2)) acc).1).max_y = my ∧
      ((L.foldl (fun acc2 _ =>
          let p := picks acc2.2.2
          let r := try_set_cell picks bound acc2.1 p.1 p.2 acc2.2.1
            (acc2.2.2 + 1)
          (r.1, r.2.1, r.2.2)) acc).1).max_x = mx := by
  intro L
  induction L with
  | nil =>
    intro acc h1 h2 h3
    exact ⟨h1, h2, h3⟩
  | cons a t ih =>
    intro acc h1 h2 h3
    rw [List.foldl_cons]
    have hp := hpicks acc.2.2
    obtain ⟨s1, s2, s3⟩ := try_set_inv picks bound my mx hpicks bound acc.2.1
      (by omega) acc.1 (picks acc.2.2).1 (picks acc.2.2).2 (acc.2.2 + 1)
      h1 h2 h3 hp.1 hp.2
    exact ih _ s1 s2 s3

theorem reseed_inv {st : GolState} (h : Inv st) (rand : Nat)
    (picks : Nat → Nat × Nat)
    (hpicks : ∀ i, ((picks i).1 : Int) < st.max_x ∧
      ((picks i).2 : Int) < st.max_y) :
    Inv (generate_random_map st rand picks) ∧
    (generate_random_map st rand picks).max_y = st.max_y ∧
    (generate_random_map st rand picks).max_x = st.max_x := by
  unfold generate_random_map
  exact reseed_fold_inv picks ((clear_map st).max_x * (clear_map st).max_y).toNat
    st.max_y st.max_x hpicks (List.range rand) (clear_map st, 0, 0)
    (Inv_clear h) rfl rfl

theorem applyOp_inv (my mx : Int) (st : GolState) (op : GolOp)
    (hinv : Inv st) (hmyeq : st.max_y = my) (hmxeq : st.max_x = mx)
    (hop : OpValid my mx op) :
    Inv (applyOp st op) ∧ (applyOp st op).max_y = my ∧
    (applyOp st op).max_x = mx := by
  cases op with
  | toggle =>
    refine ⟨Inv_toggle hinv, ?_, ?_⟩
    · rw [show (applyOp st GolOp.toggle).max_y
          = (toggle_cell_at_cursor st).max_y from rfl,
        (toggle_fields st).2.2.2.1]
      exact hmyeq
    · rw [show (applyOp st GolOp.toggle).max_x
          = (toggle_cell_at_cursor st).max_x from rfl,
        (toggle_fields st).2.2.2.2]
      exact hmxeq
  | advance => exact ⟨Inv_advance hinv, hmyeq, hmxeq⟩
  | clear => exact ⟨Inv_clear hinv, hmyeq, hmxeq⟩
  | reseed rand picks =>
    have hp : ∀ i, ((picks i).1 : Int) < st.max_x ∧
        ((picks i).2 : Int) < st.max_y := by
      intro i
      refine ⟨?_, ?_⟩
      · rw [hmxeq]
        exact (hop i).1
      · rw [hmyeq]
        exact (hop i).2
    obtain ⟨a, b, c⟩ := reseed_inv hinv rand picks hp
    refine ⟨a, ?_, ?_⟩
    · rw [show (applyOp st (GolOp.reseed rand picks)).max_y
          = (generate_random_map st rand picks).max_y from rfl, b]
      exact hmyeq
    · rw [show (applyOp st (GolOp.reseed rand picks)).max_x
          = (generate_random_map st rand picks).max_x from rfl, c]
      exact hmxeq
  | move dy dx => exact ⟨Inv_move hinv dy dx, hmyeq, hmxeq⟩

theorem foldl_inv (my mx : Int) :
    ∀ (ops : List GolOp) (st : GolState), Inv st → st.max_y = my →
      st.max_x = mx → (∀ op ∈ ops, OpValid my mx op) →
      Inv (ops.foldl applyOp st) ∧ (ops.foldl applyOp st).max_y = my ∧
      (ops.foldl applyOp st).max_x = mx := by
  intro ops
  induction ops with
  | nil =>
    intro st h1 h2 h3 _
    exact ⟨h1, h2, h3⟩
  | cons op t ih =>
    intro st h1 h2 h3 hops
    rw [List.foldl_cons]
    obtain ⟨a, b, c⟩ := applyOp_inv my mx st op h1 h2 h3 (hops op (by simp))
    exact ih _ a b c (fun op2 hop2 => hops op2 (by simp [hop2]))

/-- C2: after any sequence of cell toggles, generation advances, clears,
random reseeds and cursor moves starting from the freshly constructed
all-dead grid, the `alive` counter equals the full-scan live-cell count of
the current grid. -/
theorem claim_alive_invariant (my mx : Int) (hmy : 0 < my) (hmx : 0 < mx)
    (ops : List GolOp) (hops : ∀ op ∈ ops, OpValid my mx op) :
    (ops.foldl applyOp (initState my mx)).alive
      = (countAlive (ops.foldl applyOp (initState my mx)).gol_map : Int) :=
  ((foldl_inv my mx ops (initState my mx) (Inv_initState my mx hmy hmx)
      rfl rfl hops).1).2.2.2.2.1

/-- Witness for `claim_alive_invariant`: a concrete sequence with a move,
a toggle, an advance, a reseed and a clear on a 2×2 grid. -/
theorem claim_alive_invariant_witness :
    (0 : Int) < 2 ∧
    ([GolOp.move 1 0, GolOp.toggle, GolOp.advance,
      GolOp.reseed 3 (fun i => (i % 2, i / 2 % 2)), GolOp.clear,
      GolOp.toggle].foldl applyOp (initState 2 2)).alive
      = (countAlive
          ([GolOp.move 1 0, GolOp.toggle, GolOp.advance,
            GolOp.reseed 3 (fun i => (i % 2, i / 2 % 2)), GolOp.clear,
            GolOp.toggle].foldl applyOp (initState 2 2)).gol_map : Int) := by
  refine ⟨by norm_num, ?_⟩
  refine claim_alive_invariant 2 2 (by norm_num) (by norm_num) _ ?_
  intro op hop
  rcases List.mem_cons.mp hop with rfl | h2
  · trivial
  rcases List.mem_cons.mp h2 with rfl | h3
  · trivial
  rcases List.mem_cons.mp h3 with rfl | h4
  · trivial
  rcases List.mem_cons.mp h4 with rfl | h5
  · intro i
    dsimp only
    refine ⟨?_, ?_⟩ <;> omega
  rcases List.mem_cons.mp h5 with rfl | h6
  · trivial
  rcases List.mem_cons.mp h6 with rfl | h7
  · trivial
  simp at h7

end GoL
